import Mathlib

/-!
# Verification of the bughunt-api game engine

Shallow embedding of the TypeScript services of the bughunt-api repository:
the second (authoritative) `GameService` of `src/game/game.service.ts`
(card generation, flipping, matching, turn switching, timer expiration),
`AiService` (bug/solution pair sourcing with local fallback) and
`RoomsService` (room join and room-code allocation).

Embedding conventions:
* JavaScript objects mutated in place become functional record updates;
  `Array.prototype.find` + in-place mutation of the found object becomes
  `updateFirst` (update of the first list element satisfying the predicate).
* `Date.now()` becomes an explicit `now : Nat` argument.
* `Math.random()`-driven choices become explicit arguments: the list of
  Fisher-Yates draws `js : List Nat`, the drawn `gameId`, the stream of
  room-code draws.
* A JS `Record<string, T>` (string-keyed object with insertion order)
  becomes a `List T` keyed by the `id` field, in insertion order.
* `null`/`undefined`-valued fields become `Option`; a field that is never
  assigned (such as `isCurrentTurn` in the authoritative `createGame`,
  which builds the player record without it) reads as JS `undefined`,
  i.e. falsy, and is embedded as `false`.
* The `setTimeout` scheduled in the no-match branch is embedded as data:
  the flip result carries the captured card references (by id), and the
  timeout body is the separate function `noMatchTimeout`.
-/

/-- Card type: `'bug' | 'solution'` (`card.entity.ts`). -/
inductive CardType where
  | bug : CardType
  | solution : CardType
deriving DecidableEq

/-- Card difficulty: `'easy' | 'medium' | 'hard'` (`card.entity.ts`). -/
inductive CardDifficulty where
  | easy : CardDifficulty
  | medium : CardDifficulty
  | hard : CardDifficulty
deriving DecidableEq

/-- A card on the board (`card.entity.ts`, interface `Card`). -/
structure Card where
  id : String
  type : CardType
  content : String
  difficulty : CardDifficulty
  isFlipped : Bool
  isMatched : Bool
  matchingCardId : String
  position : Nat
deriving DecidableEq

/-- Per-player session state (`game.entity.ts`, interface `PlayerGameState`). -/
structure PlayerGameState where
  id : String
  nickname : String
  score : Nat
  matchesFound : Nat
  isCurrentTurn : Bool
deriving DecidableEq

/-- Game status: `'waiting' | 'playing' | 'finished'` (`game.entity.ts`). -/
inductive GameStatus where
  | waiting : GameStatus
  | playing : GameStatus
  | finished : GameStatus
deriving DecidableEq

/-- A game session (`game.entity.ts`, interface `GameState`).
`players` is the JS `Record<string, PlayerGameState>` as an insertion-ordered
list keyed by `id`. -/
structure GameState where
  gameId : String
  status : GameStatus
  roomCode : String
  cards : List Card
  players : List PlayerGameState
  currentTurn : String
  turnNumber : Nat
  firstFlippedCard : Option String
  secondFlippedCard : Option String
  startedAt : Nat
  endedAt : Option Nat
  turnTimeLimit : Nat
  currentTurnStartedAt : Nat
deriving DecidableEq

/-- Game configuration (`game.entity.ts`, interface `GameConfig`). -/
structure GameConfig where
  numberOfPairs : Nat
  turnTimeLimit : Nat
  easyCount : Nat
  mediumCount : Nat
  hardCount : Nat
deriving DecidableEq

/-- A bug/solution content pair as returned by
`AiService.generateBugSolutionPairs`. -/
structure BugSolutionPair where
  bug : String
  solution : String
  difficulty : CardDifficulty
deriving DecidableEq

/-- The `{ id, nickname }` player descriptors passed to `createGame`. -/
structure RoomPlayer where
  id : String
  nickname : String
deriving DecidableEq

/-- Update the first element of a list satisfying `p` (the embedding of
JS `array.find(p)` followed by in-place mutation of the found object). -/
def updateFirst (p : α → Bool) (f : α → α) : List α → List α
  | [] => []
  | x :: xs => if p x then f x :: xs else x :: updateFirst p f xs

/-! ## AiService (`ai.service.ts`) -/

/-- The fixed built-in fallback content of `AiService` (field
`fallbackContent`), flattened in the order `getFallbackPairs` traverses it:
all easy pairs, then all medium pairs, then all hard pairs. -/
def fallbackPairs : List BugSolutionPair :=
  [ ⟨"Null Pointer Exception", "Check for null before accessing object", .easy⟩,
    ⟨"Array Index Out of Bounds", "Verify array index is within bounds", .easy⟩,
    ⟨"Infinite Loop", "Add proper loop termination condition", .easy⟩,
    ⟨"Race Condition", "Implement proper synchronization", .medium⟩,
    ⟨"Memory Leak", "Release resources in finally block", .medium⟩,
    ⟨"SQL Injection", "Use parameterized queries", .medium⟩,
    ⟨"Deadlock", "Implement proper lock ordering", .hard⟩,
    ⟨"Buffer Overflow", "Validate buffer size before writing", .hard⟩,
    ⟨"Cross-Site Scripting", "Sanitize user input", .hard⟩ ]

/-- One iteration of `AiService.shuffleArray`: swap indices `i` and `j`.
Out-of-range indices cannot occur in the source loop; they leave the list
unchanged here. -/
def swapAt (l : List α) (i j : Nat) : List α :=
  match l[i]?, l[j]? with
  | some a, some b => (l.set i b).set j a
  | _, _ => l

/-- The Fisher-Yates loop of `AiService.shuffleArray`: `i` runs from
`l.length - 1` down to `1`, swapping index `i` with the drawn index `j`.
`js` is the stream of draws `Math.floor(Math.random() * (i + 1))`. -/
def shuffleArrayAux (l : List α) : Nat → List Nat → List α
  | 0, _ => l
  | _ + 1, [] => l
  | i + 1, j :: js => shuffleArrayAux (swapAt l (i + 1) j) i js

/-- `AiService.shuffleArray` with the random draws made explicit. -/
def shuffleArray (l : List α) (js : List Nat) : List α :=
  shuffleArrayAux l (l.length - 1) js

/-- `AiService.getFallbackPairs`: shuffle the nine built-in pairs and take
the first `count` (`.slice(0, count)`). -/
def getFallbackPairs (count : Nat) (js : List Nat) : List BugSolutionPair :=
  (shuffleArray fallbackPairs js).take count

/-- `AiService.generateBugSolutionPairs`. `aiResult` is the outcome of the
OpenAI call and JSON parse: `none` for any thrown error or a non-array
response, `some l` for a parsed array `l`. A parsed array of the wrong
length throws (`Invalid AI response format`) and is caught, so both paths
fall back to `getFallbackPairs`. -/
def generateBugSolutionPairs (count : Nat) (aiResult : Option (List BugSolutionPair))
    (js : List Nat) : List BugSolutionPair :=
  match aiResult with
  | some l => if l.length = count then l else getFallbackPairs count js
  | none => getFallbackPairs count js

/-! ## GameService (`game.service.ts`, authoritative version) -/

/-- The card id minted by `generateCards`: the template string
`card_${position}`. -/
def cardId (n : Nat) : String :=
  "card_" ++ toString n

/-- The pair-to-cards loop body of `GameService.generateCards`: for each
pair, a bug card and a solution card with mutually referencing ids and
consecutive positions, starting at `pos`. -/
def generateCardsAux : List BugSolutionPair → Nat → List Card
  | [], _ => []
  | p :: rest, pos =>
    { id := cardId pos, type := .bug, content := p.bug, difficulty := p.difficulty,
      isFlipped := false, isMatched := false, matchingCardId := cardId (pos + 1),
      position := pos } ::
    { id := cardId (pos + 1), type := .solution, content := p.solution,
      difficulty := p.difficulty, isFlipped := false, isMatched := false,
      matchingCardId := cardId pos, position := pos + 1 } ::
    generateCardsAux rest (pos + 2)

/-- One iteration of `GameService.shuffleCards`: swap indices `i` and `j`,
then reassign `position := i` and `position := j` to the cards now at those
indices (the source mutates `shuffled[i].position` and `shuffled[j].position`
after the swap). -/
def fisherSwap (cards : List Card) (i j : Nat) : List Card :=
  match cards[i]?, cards[j]? with
  | some ci, some cj =>
    (cards.set i { cj with position := i }).set j { ci with position := j }
  | _, _ => cards

/-- The Fisher-Yates loop of `GameService.shuffleCards`. -/
def shuffleCardsAux (cards : List Card) : Nat → List Nat → List Card
  | 0, _ => cards
  | _ + 1, [] => cards
  | i + 1, j :: js => shuffleCardsAux (fisherSwap cards (i + 1) j) i js

/-- `GameService.shuffleCards` with the random draws made explicit. -/
def shuffleCards (cards : List Card) (js : List Nat) : List Card :=
  shuffleCardsAux cards (cards.length - 1) js

/-- `GameService.generateCards`: mint two back-referencing cards per pair
with dense positions, then shuffle. -/
def generateCards (pairs : List BugSolutionPair) (js : List Nat) : List Card :=
  shuffleCards (generateCardsAux pairs 0) js

/-- `GameService.calculateScore`: `{ easy: 10, medium: 20, hard: 30 }`. -/
def calculateScore : CardDifficulty → Nat
  | .easy => 10
  | .medium => 20
  | .hard => 30

/-- `GameService.createGame` (authoritative version). The player record is
built by a `reduce` into a `Record<string, any>` that assigns only
`id`, `nickname`, `score` and `matchesFound`; the `isCurrentTurn` field of
the `PlayerGameState` interface is never assigned and therefore reads as
JS `undefined` (falsy), embedded as `false`. `gameId` is the drawn
`Math.random().toString(36).substring(7)` value. -/
def createGame (roomCode : String) (players : List RoomPlayer) (config : GameConfig)
    (gameId : String) (aiResult : Option (List BugSolutionPair))
    (aiJs cardJs : List Nat) (now : Nat) : GameState :=
  let pairs := generateBugSolutionPairs config.numberOfPairs aiResult aiJs
  let cards := generateCards pairs cardJs
  { gameId := gameId
    status := .playing
    roomCode := roomCode
    cards := cards
    players := players.map fun p =>
      { id := p.id, nickname := p.nickname, score := 0, matchesFound := 0,
        isCurrentTurn := false }
    currentTurn := ((players.head?).map (·.id)).getD ""
    turnNumber := 1
    firstFlippedCard := none
    secondFlippedCard := none
    startedAt := now
    endedAt := none
    turnTimeLimit := config.turnTimeLimit
    currentTurnStartedAt := now }

/-- `GameService.switchTurns`: round-robin over `Object.keys(game.players)`.
JS `indexOf` yields `-1` when `currentTurn` is not a key, hence the `Int`
arithmetic; the in-range lookup `playerIds[nextIndex]` is total in the
source, so an (unreachable) out-of-range lookup keeps `currentTurn`. -/
def switchTurns (game : GameState) (now : Nat) : GameState :=
  let playerIds := game.players.map (·.id)
  let currentIndex : Int :=
    match playerIds.findIdx? (· == game.currentTurn) with
    | some i => (i : Int)
    | none => -1
  let nextIndex := ((currentIndex + 1) % (playerIds.length : Int)).toNat
  let newTurn := (playerIds[nextIndex]?).getD game.currentTurn
  { game with
    currentTurn := newTurn
    turnNumber := game.turnNumber + 1
    currentTurnStartedAt := now
    players := game.players.map fun p => { p with isCurrentTurn := p.id == newTurn } }

/-- The result actions of `handleCardFlip`:
`'flip' | 'match' | 'noMatch' | 'error'` (`match` is a Lean keyword, hence
`matchFound`). -/
inductive FlipAction where
  | flip : FlipAction
  | matchFound : FlipAction
  | noMatch : FlipAction
  | error : FlipAction
deriving DecidableEq

/-- The result of `handleCardFlip`: the returned `{ gameState, action }`
plus the `setTimeout` scheduled in the no-match branch, recorded as the
captured card references `(firstCard?.id, card.id)`. -/
structure FlipResult where
  gameState : GameState
  action : FlipAction
  scheduled : Option (Option String × String)
deriving DecidableEq

/-- `GameService.handleCardFlip` (per-session; the registry lookup returning
`null` for an unknown game id is handled at the registry layer). -/
def handleCardFlip (game : GameState) (playerId cardId : String) (now : Nat) :
    FlipResult :=
  if game.currentTurn ≠ playerId then ⟨game, .error, none⟩
  else
    match game.cards.find? (fun c => c.id == cardId) with
    | none => ⟨game, .error, none⟩
    | some card =>
      if card.isMatched ∨ card.isFlipped then ⟨game, .error, none⟩
      else
        let cards1 := updateFirst (fun c => c.id == cardId)
          (fun c => { c with isFlipped := true }) game.cards
        let game1 := { game with cards := cards1 }
        match game.firstFlippedCard with
        | none => ⟨{ game1 with firstFlippedCard := some cardId }, .flip, none⟩
        | some fid =>
          let game2 := { game1 with secondFlippedCard := some cardId }
          let firstCard := game2.cards.find? (fun c => c.id == fid)
          if firstCard.map (·.matchingCardId) = some cardId then
            let cards2 := updateFirst (fun c => c.id == cardId)
              (fun c => { c with isMatched := true }) game2.cards
            let cards3 := updateFirst (fun c => c.id == fid)
              (fun c => { c with isMatched := true }) cards2
            let players2 := updateFirst (fun p => p.id == playerId)
              (fun p => { p with matchesFound := p.matchesFound + 1,
                                 score := p.score + calculateScore card.difficulty })
              game2.players
            let game3 :=
              { game2 with
                cards := cards3
                players := players2
                firstFlippedCard := none
                secondFlippedCard := none }
            if cards3.all (·.isMatched) then
              ⟨{ game3 with status := .finished, endedAt := some now }, .matchFound, none⟩
            else
              ⟨{ game3 with currentTurnStartedAt := now }, .matchFound, none⟩
          else
            ⟨game2, .noMatch, some (firstCard.map (·.id), cardId)⟩

/-- The body of the `setTimeout` scheduled in the no-match branch of
`handleCardFlip`: flip back the captured first card (if it was found) and
the captured second card, clear both pending slots, switch turns. The
captured object references are replayed by id against the current state;
engine-generated boards have distinct card ids, so this coincides with the
JS object mutation. -/
def noMatchTimeout (game : GameState) (firstCardId : Option String)
    (cardId : String) (now : Nat) : GameState :=
  let cards1 :=
    match firstCardId with
    | some fid => updateFirst (fun c => c.id == fid)
        (fun c => { c with isFlipped := false }) game.cards
    | none => game.cards
  let cards2 := updateFirst (fun c => c.id == cardId)
    (fun c => { c with isFlipped := false }) cards1
  switchTurns
    { game with
      cards := cards2
      firstFlippedCard := none
      secondFlippedCard := none } now

/-- `GameService.handleTimerExpiration` (per-session). Returns `none` for
the `null` early exits (unknown game is handled at the registry layer;
`currentTurn !== playerId` here) and otherwise the mutated state of the
returned `{ gameState, action: 'timeUp' }`. -/
def handleTimerExpiration (game : GameState) (playerId : String) (now : Nat) :
    Option GameState :=
  if game.currentTurn ≠ playerId then none
  else
    let game1 :=
      match game.firstFlippedCard with
      | some fid =>
        { game with
          cards := updateFirst (fun c => c.id == fid)
            (fun c => { c with isFlipped := false }) game.cards
          firstFlippedCard := none }
      | none => game
    some (switchTurns game1 now)

/-- The games registry `Map<string, GameState>`: `Map.set` updates an
existing key in place and otherwise appends. -/
def gamesSet (games : List (String × GameState)) (g : GameState) :
    List (String × GameState) :=
  if games.any (fun kv => kv.1 == g.gameId) then
    games.map fun kv => if kv.1 == g.gameId then (kv.1, g) else kv
  else
    games ++ [(g.gameId, g)]

/-- The games registry `Map.get`. -/
def gamesGet (games : List (String × GameState)) (gameId : String) :
    Option GameState :=
  (games.find? (fun kv => kv.1 == gameId)).map (·.2)

/-! ## RoomsService (`rooms.service.ts`) -/

/-- A player in a room (`room.interface.ts`, interface `Player`). -/
structure Player where
  id : String
  nickname : String
  isReady : Bool
  isHost : Bool
  joinedAt : Nat
deriving DecidableEq

/-- Room status. -/
inductive RoomStatus where
  | waiting : RoomStatus
  | playing : RoomStatus
  | finished : RoomStatus
deriving DecidableEq

/-- A game room (`room.interface.ts`, interface `GameRoom`); `players` is
the JS `Record<string, Player>` as an insertion-ordered list keyed by `id`. -/
structure GameRoom where
  roomCode : String
  hostId : String
  players : List Player
  status : RoomStatus
  maxPlayers : Nat
  createdAt : Nat
deriving DecidableEq

/-- Rooms registry `Map.get`. -/
def roomsGet (rooms : List (String × GameRoom)) (code : String) : Option GameRoom :=
  (rooms.find? (fun kv => kv.1 == code)).map (·.2)

/-- Rooms registry `Map.set` restricted to an existing key (the only use
`joinRoom` makes of it: the joined room is already in the map). -/
def roomsSet (rooms : List (String × GameRoom)) (code : String) (room : GameRoom) :
    List (String × GameRoom) :=
  rooms.map fun kv => if kv.1 == code then (kv.1, room) else kv

/-- JS `room.players[playerId] = player`: update an existing key in place,
otherwise append. -/
def playersSet (players : List Player) (playerId : String) (player : Player) :
    List Player :=
  if players.any (fun p => p.id == playerId) then
    updateFirst (fun p => p.id == playerId) (fun _ => player) players
  else
    players ++ [player]

/-- `RoomsService.joinRoom`: reject (`null`) when the room is absent, at
capacity, or the nickname is already used by a current member (case-sensitive
`===`); otherwise add a non-host, non-ready player. Returns the updated
registry together with the returned room (`none` embeds `null`). -/
def joinRoom (rooms : List (String × GameRoom)) (roomCode playerId nickname : String)
    (now : Nat) : List (String × GameRoom) × Option GameRoom :=
  match roomsGet rooms roomCode with
  | none => (rooms, none)
  | some room =>
    if room.players.length ≥ room.maxPlayers then (rooms, none)
    else if room.players.any (fun p => p.nickname == nickname) then (rooms, none)
    else
      let player : Player :=
        { id := playerId, nickname := nickname, isReady := false, isHost := false,
          joinedAt := now }
      let room2 := { room with players := playersSet room.players playerId player }
      (roomsSet rooms roomCode room2, some room2)

/-- `RoomsService.generateRoomCode`: draw codes until one is not a live
room key (`do { ... } while (this.rooms.has(code))`). `draws` is the stream
of random 6-character codes; `none` embeds exhaustion of the supplied
stream (the source loops forever on an inexhaustible stream). -/
def generateRoomCode (rooms : List (String × GameRoom)) : List String → Option String
  | [] => none
  | d :: ds =>
    if rooms.any (fun kv => kv.1 == d) then generateRoomCode rooms ds else some d

/-! ## Concrete sessions used as evidence

The fixtures below are sessions actually produced by the engine: games
created by `createGame` (with the AI call failing, hence the built-in
fallback pairs, and with an empty draw stream, so the shuffle is the
identity), then advanced by `handleCardFlip` calls. -/

/-- A one-pair configuration. -/
def testConfig1 : GameConfig := ⟨1, 30, 1, 0, 0⟩

/-- A two-pair configuration. -/
def testConfig2 : GameConfig := ⟨2, 30, 2, 0, 0⟩

/-- A freshly created one-pair session for players `A` (listed first) and `B`. -/
def testGame1 : GameState :=
  createGame "ROOM" [⟨"A", "alice"⟩, ⟨"B", "bob"⟩] testConfig1 "gid1" none [] [] 0

/-- A freshly created two-pair session for players `A` (listed first) and `B`:
cards `card_0` (matching `card_1`), `card_1`, `card_2` (matching `card_3`),
`card_3`. -/
def testGame2 : GameState :=
  createGame "ROOM" [⟨"A", "alice"⟩, ⟨"B", "bob"⟩] testConfig2 "gid2" none [] [] 0

/-- C1: the spec requires a stale timer fire to be a guaranteed no-op, but
after a match the acting player retains the turn, so the timer armed for the
superseded turn still satisfies the only guard `currentTurn === playerId`:
in `testGame2`, after `A` matches `card_0`/`card_1`, the stale fire
`handleTimerExpiration _ "A"` switches the turn to `B` and increments
`turnNumber` instead of leaving the session unchanged. -/
theorem stale_timer_fire_after_match_mutates_session :
    (handleCardFlip ((handleCardFlip testGame2 "A" "card_0" 1).gameState)
        "A" "card_1" 2).action = FlipAction.matchFound ∧
    ((handleCardFlip ((handleCardFlip testGame2 "A" "card_0" 1).gameState)
        "A" "card_1" 2).gameState.status = GameStatus.playing) ∧
    ((handleCardFlip ((handleCardFlip testGame2 "A" "card_0" 1).gameState)
        "A" "card_1" 2).gameState.currentTurn = "A") ∧
    ((handleCardFlip ((handleCardFlip testGame2 "A" "card_0" 1).gameState)
        "A" "card_1" 2).gameState.turnNumber = 1) ∧
    (handleTimerExpiration
        ((handleCardFlip ((handleCardFlip testGame2 "A" "card_0" 1).gameState)
          "A" "card_1" 2).gameState) "A" 9).map GameState.turnNumber = some 2 ∧
    (handleTimerExpiration
        ((handleCardFlip ((handleCardFlip testGame2 "A" "card_0" 1).gameState)
          "A" "card_1" 2).gameState) "A" 9).map GameState.currentTurn = some "B" := by
  decide

/-- C2: the spec requires `finished` to be terminal, but
`handleTimerExpiration` never checks `status`: in `testGame1`, after `A`
matches the only pair the session is `finished` with every card matched,
yet a timer fire for `A` still switches turns (`turnNumber` 1 → 2,
`currentTurn` `A` → `B`) on the finished session. -/
theorem timer_expiration_mutates_finished_session :
    ((handleCardFlip ((handleCardFlip testGame1 "A" "card_0" 1).gameState)
        "A" "card_1" 2).gameState.status = GameStatus.finished) ∧
    ((handleCardFlip ((handleCardFlip testGame1 "A" "card_0" 1).gameState)
        "A" "card_1" 2).gameState.cards.all (·.isMatched) = true) ∧
    ((handleCardFlip ((handleCardFlip testGame1 "A" "card_0" 1).gameState)
        "A" "card_1" 2).gameState.turnNumber = 1) ∧
    (handleTimerExpiration
        ((handleCardFlip ((handleCardFlip testGame1 "A" "card_0" 1).gameState)
          "A" "card_1" 2).gameState) "A" 9).map GameState.turnNumber = some 2 ∧
    (handleTimerExpiration
        ((handleCardFlip ((handleCardFlip testGame1 "A" "card_0" 1).gameState)
          "A" "card_1" 2).gameState) "A" 9).map GameState.status =
      some GameStatus.finished := by
  decide

/-- C3: the spec requires exactly one player to hold `isCurrentTurn = true`
while `status = 'playing'`, from creation on, but the authoritative
`createGame` builds the player record without the `isCurrentTurn` field, so
immediately after creation the session is `playing` and no player holds the
flag. -/
theorem createGame_seeds_no_current_turn_holder :
    testGame2.status = GameStatus.playing ∧
    testGame2.players.map (·.isCurrentTurn) = [false, false] ∧
    testGame2.players.countP (·.isCurrentTurn) = 0 := by
  decide

/-- C5: the spec bounds simultaneously flipped-and-unresolved cards by two,
but during the no-match visibility window the engine keeps accepting flips:
in `testGame2`, `A` flips `card_0`, `card_2` (no match, resolution deferred),
then `card_3` — leaving three flipped unmatched cards and a second pending
deferred resolution for the same first card. -/
theorem third_flip_during_pending_no_match_exceeds_two :
    ((handleCardFlip ((handleCardFlip testGame2 "A" "card_0" 1).gameState)
        "A" "card_2" 2).action = FlipAction.noMatch) ∧
    ((handleCardFlip ((handleCardFlip ((handleCardFlip testGame2 "A" "card_0" 1).gameState)
        "A" "card_2" 2).gameState) "A" "card_3" 3).action = FlipAction.noMatch) ∧
    ((handleCardFlip ((handleCardFlip ((handleCardFlip testGame2 "A" "card_0" 1).gameState)
        "A" "card_2" 2).gameState) "A" "card_3" 3).gameState.cards.countP
        (fun c => c.isFlipped && !c.isMatched) = 3) ∧
    ((handleCardFlip ((handleCardFlip ((handleCardFlip testGame2 "A" "card_0" 1).gameState)
        "A" "card_2" 2).gameState) "A" "card_3" 3).scheduled =
      some (some "card_0", "card_3")) := by
  decide

/-- C4: `handleCardFlip` rejects (action `'error'`) exactly when the caller
is not the current-turn player or the card is unknown, already matched, or
already flipped — and every rejection returns the game state unchanged and
schedules nothing. -/
theorem handleCardFlip_rejects_iff_no_mutation (game : GameState)
    (playerId cid : String) (now : Nat) :
    ((handleCardFlip game playerId cid now).action = FlipAction.error ↔
      game.currentTurn ≠ playerId ∨
      game.cards.find? (fun c => c.id == cid) = none ∨
      (∃ c, game.cards.find? (fun c => c.id == cid) = some c ∧
        (c.isMatched = true ∨ c.isFlipped = true))) ∧
    ((handleCardFlip game playerId cid now).action = FlipAction.error →
      (handleCardFlip game playerId cid now).gameState = game ∧
      (handleCardFlip game playerId cid now).scheduled = none) := by
  by_cases hturn : game.currentTurn = playerId
  · cases hfind : game.cards.find? (fun c => c.id == cid) with
    | none =>
      simp [handleCardFlip, hturn, hfind]
    | some c =>
      by_cases hmf : c.isMatched = true ∨ c.isFlipped = true
      · simp [handleCardFlip, hturn, hfind, hmf]
      · have h1 : c.isMatched = false := by
          cases hcm : c.isMatched
          · rfl
          · exact absurd (Or.inl hcm) hmf
        have h2 : c.isFlipped = false := by
          cases hcf : c.isFlipped
          · rfl
          · exact absurd (Or.inr hcf) hmf
        simp only [handleCardFlip, hturn, hfind]
        simp only [if_neg hmf]
        cases hff : game.firstFlippedCard with
        | none =>
          simp [hturn, hfind, h1, h2]
        | some fid =>
          simp only [hff]
          split_ifs with hA hB hC
          · exact (hA rfl).elim
          · simp [hturn, hfind, h1, h2]
          · simp [hturn, hfind, h1, h2]
          · simp [hturn, hfind, h1, h2]
  · simp [handleCardFlip, hturn]

/-- Witness for C4: `B` flipping out of turn in `testGame2` is rejected with
zero mutation. -/
theorem handleCardFlip_rejects_iff_no_mutation_witness :
    (handleCardFlip testGame2 "B" "card_0" 5).action = FlipAction.error ∧
    (handleCardFlip testGame2 "B" "card_0" 5).gameState = testGame2 ∧
    (handleCardFlip testGame2 "B" "card_0" 5).scheduled = none := by
  have h := handleCardFlip_rejects_iff_no_mutation testGame2 "B" "card_0" 5
  have herr : (handleCardFlip testGame2 "B" "card_0" 5).action = FlipAction.error :=
    h.1.mpr (Or.inl (by decide))
  exact ⟨herr, (h.2 herr).1, (h.2 herr).2⟩

/-- `playersSet` stores the new player under its key: looking the key up
afterwards yields exactly the inserted player. -/
theorem find?_playersSet (players : List Player) (pid : String) (pl : Player)
    (h : pl.id = pid) :
    (playersSet players pid pl).find? (fun p => p.id == pid) = some pl := by
  induction players with
  | nil => simp [playersSet, List.find?, h]
  | cons q qs ih =>
    by_cases hq : (q.id == pid) = true
    · simp [playersSet, updateFirst, hq, List.find?, h]
    · have hq2 : (q.id == pid) = false := by
        cases hb : (q.id == pid)
        · rfl
        · exact absurd hb hq
      cases hqs : qs.any (fun p => p.id == pid) with
      | true =>
        simp only [playersSet, List.any_cons, hq2, hqs, Bool.false_or, if_pos,
          updateFirst, Bool.false_eq_true, if_false, List.find?_cons, hq2] at ih ⊢
        exact ih
      | false =>
        simp only [playersSet, List.any_cons, hq2, hqs, Bool.false_or,
          Bool.false_eq_true, if_false, List.cons_append, List.find?_cons, hq2] at ih ⊢
        exact ih

/-- Writing a room back under a key that is present makes subsequent lookup
return the written room. -/
theorem roomsGet_roomsSet_self (rooms : List (String × GameRoom)) (code : String)
    (room0 room : GameRoom) (h : roomsGet rooms code = some room0) :
    roomsGet (roomsSet rooms code room) code = some room := by
  induction rooms with
  | nil => simp [roomsGet] at h
  | cons kv rest ih =>
    by_cases hk : (kv.1 == code) = true
    · simp [roomsGet, roomsSet, List.find?, hk]
    · have hk2 : (kv.1 == code) = false := by
        cases hb : (kv.1 == code)
        · rfl
        · exact absurd hb hk
      simp only [roomsGet, List.find?_cons, hk2] at h
      simp only [roomsSet, List.map_cons, hk2, Bool.false_eq_true, if_false, roomsGet,
        List.find?_cons]
      exact ih h

/-- C9: `joinRoom` rejects exactly when the room is absent, at capacity, or
the nickname is already used by a current member (case-sensitive); every
rejection leaves the registry (hence the room's player set) unchanged, and
success stores a player with `isHost = false` and `isReady = false` under the
joining player's id. -/
theorem joinRoom_rejects_iff_adds_nonhost (rooms : List (String × GameRoom))
    (roomCode playerId nickname : String) (now : Nat) :
    ((joinRoom rooms roomCode playerId nickname now).2 = none ↔
      roomsGet rooms roomCode = none ∨
      ∃ room, roomsGet rooms roomCode = some room ∧
        (room.players.length ≥ room.maxPlayers ∨
         room.players.any (fun p => p.nickname == nickname) = true)) ∧
    ((joinRoom rooms roomCode playerId nickname now).2 = none →
      (joinRoom rooms roomCode playerId nickname now).1 = rooms) ∧
    (∀ room2, (joinRoom rooms roomCode playerId nickname now).2 = some room2 →
      room2.players.find? (fun p => p.id == playerId) =
        some ⟨playerId, nickname, false, false, now⟩ ∧
      roomsGet (joinRoom rooms roomCode playerId nickname now).1 roomCode = some room2) := by
  cases hget : roomsGet rooms roomCode with
  | none => simp [joinRoom, hget]
  | some room =>
    by_cases hfull : room.players.length ≥ room.maxPlayers
    · simp [joinRoom, hget, hfull]
    · by_cases hnick : room.players.any (fun p => p.nickname == nickname) = true
      · refine ⟨?_, ?_, ?_⟩
        · simp [joinRoom, hget, hfull, hnick]
          simpa using hnick
        · simp [joinRoom, hget, hfull, hnick]
        · intro room2 hr2
          simp [joinRoom, hget, hfull, hnick] at hr2
      · simp only [joinRoom, hget, if_neg hfull, hnick, Bool.false_eq_true, if_false]
        refine ⟨by simp [hget, hfull]; simpa using hnick, by simp, ?_⟩
        intro room2 hr2
        simp only [Option.some_inj] at hr2
        subst hr2
        constructor
        · exact find?_playersSet room.players playerId _ rfl
        · exact roomsGet_roomsSet_self rooms roomCode room _ hget

/-- A waiting one-player room hosted by `alice`. -/
def testRoom : GameRoom :=
  ⟨"AB", "H", [⟨"H", "alice", false, true, 0⟩], RoomStatus.waiting, 2, 0⟩

/-- A registry holding only `testRoom`. -/
def testRooms : List (String × GameRoom) := [("AB", testRoom)]

/-- `testRoom` after `bob` joined. -/
def testRoomJoined : GameRoom :=
  ⟨"AB", "H", [⟨"H", "alice", false, true, 0⟩, ⟨"P2", "bob", false, false, 7⟩],
    RoomStatus.waiting, 2, 0⟩

/-- Witness for C9: `bob` joining `testRoom` succeeds and is stored as a
non-host, non-ready player. -/
theorem joinRoom_rejects_iff_adds_nonhost_witness :
    (joinRoom testRooms "AB" "P2" "bob" 7).2 = some testRoomJoined ∧
    testRoomJoined.players.find? (fun p => p.id == "P2") =
      some ⟨"P2", "bob", false, false, 7⟩ := by
  have h := joinRoom_rejects_iff_adds_nonhost testRooms "AB" "P2" "bob" 7
  have he : (joinRoom testRooms "AB" "P2" "bob" 7).2 = some testRoomJoined := by decide
  exact ⟨he, (h.2.2 testRoomJoined he).1⟩

/-- Registry-level `createGame`: the source ends with
`this.games.set(gameState.gameId, gameState)` and no collision check. -/
def createGameInRegistry (games : List (String × GameState)) (roomCode : String)
    (players : List RoomPlayer) (config : GameConfig) (gid : String)
    (aiResult : Option (List BugSolutionPair)) (aiJs cardJs : List Nat) (now : Nat) :
    GameState × List (String × GameState) :=
  let gameState := createGame roomCode players config gid aiResult aiJs cardJs now
  (gameState, gamesSet games gameState)

/-- The key-overwrite function used by `gamesSet` preserves keys, so key
predicates are invariant under it. -/
theorem setKeyFun_comp (g : GameState) (q : String) :
    ((fun kv : String × GameState => kv.1 == q) ∘
      (fun kv : String × GameState =>
        if (kv.1 == g.gameId) = true then (kv.1, g) else kv)) =
    (fun kv : String × GameState => kv.1 == q) := by
  funext kv
  by_cases hk : (kv.1 == g.gameId) = true
  · have hk2 : kv.1 = g.gameId := by simpa using hk
    simp [hk2]
  · have hk2 : ¬ kv.1 = g.gameId := by simpa using hk
    simp [hk2]

theorem gamesGet_gamesSet_self (games : List (String × GameState)) (g : GameState) :
    gamesGet (gamesSet games g) g.gameId = some g := by
  unfold gamesSet gamesGet
  by_cases hany : games.any (fun kv => kv.1 == g.gameId) = true
  · simp only [if_pos hany, List.find?_map, setKeyFun_comp g g.gameId]
    obtain ⟨kv, hmem, hkv⟩ := List.any_eq_true.mp hany
    cases hfind : games.find? (fun kv => kv.1 == g.gameId) with
    | none =>
      rw [List.find?_eq_none] at hfind
      exact absurd hkv (by simpa using hfind kv hmem)
    | some kv0 =>
      have hk0 : kv0.1 = g.gameId := by simpa using List.find?_some hfind
      simp [hk0]
  · simp only [if_neg hany, List.find?_append]
    have hnone : games.find? (fun kv => kv.1 == g.gameId) = none := by
      rw [List.find?_eq_none]
      intro kv hkv hb
      exact hany (List.any_eq_true.mpr ⟨kv, hkv, hb⟩)
    simp [hnone, List.find?]

theorem gamesGet_gamesSet_ne (games : List (String × GameState)) (g : GameState)
    (other : String) (h : other ≠ g.gameId) :
    gamesGet (gamesSet games g) other = gamesGet games other := by
  unfold gamesSet gamesGet
  by_cases hany : games.any (fun kv => kv.1 == g.gameId) = true
  · simp only [if_pos hany, List.find?_map, setKeyFun_comp g other]
    cases hfind : games.find? (fun kv => kv.1 == other) with
    | none => simp
    | some kv0 =>
      have hk0 := List.find?_some hfind
      have h1 : kv0.1 = other := by simpa using hk0
      have h2 : ¬ kv0.1 = g.gameId := fun hb => h (h1 ▸ hb)
      simp [h2]
  · simp only [if_neg hany, List.find?_append]
    have h2 : (([(g.gameId, g)] : List (String × GameState)).find?
        (fun kv => kv.1 == other)) = none := by
      have : (g.gameId == other) = false := by
        cases hb : (g.gameId == other)
        · rfl
        · exact absurd ((by simpa using hb : g.gameId = other)).symm h
      simp [List.find?, this]
    simp [h2]

theorem any_of_gamesGet_some (games : List (String × GameState)) (q : String)
    (v : GameState) (h : gamesGet games q = some v) :
    games.any (fun kv => kv.1 == q) = true := by
  unfold gamesGet at h
  cases hf : games.find? (fun kv => kv.1 == q) with
  | none => simp [hf] at h
  | some kv =>
    have hmem := List.mem_of_find?_eq_some hf
    have hp := List.find?_some hf
    exact List.any_eq_true.mpr ⟨kv, hmem, hp⟩

theorem countP_gamesSet_present (games : List (String × GameState)) (g : GameState)
    (x : String) (hany : games.any (fun kv => kv.1 == g.gameId) = true) :
    (gamesSet games g).countP (fun kv => kv.1 == x) =
      games.countP (fun kv => kv.1 == x) := by
  unfold gamesSet
  simp only [if_pos hany, List.countP_map, setKeyFun_comp g x]

theorem generateRoomCode_fresh (rooms : List (String × GameRoom)) (draws : List String)
    (code : String) (h : generateRoomCode rooms draws = some code) :
    rooms.any (fun kv => kv.1 == code) = false := by
  induction draws with
  | nil => simp [generateRoomCode] at h
  | cons d ds ih =>
    unfold generateRoomCode at h
    by_cases hd : rooms.any (fun kv => kv.1 == d) = true
    · rw [if_pos hd] at h
      exact ih h
    · rw [if_neg hd] at h
      have hdc : d = code := by simpa using h
      subst hdc
      cases hb : rooms.any (fun kv => kv.1 == d)
      · rfl
      · exact absurd hb hd

/-- C10: `createGame` keys the session registry by the unchecked drawn id:
sessions under other ids are untouched (frame), but a second call whose draw
collides replaces the first session (lookup yields the second, and the entry
count for the id does not grow) — unlike room codes, which
`generateRoomCode` redraws while they collide with a live room, so a
returned code is never a live key. -/
theorem createGame_unchecked_id_collision_overwrites :
    (∀ (roomCode : String) (players : List RoomPlayer) (config : GameConfig)
       (gid : String) (aiResult : Option (List BugSolutionPair))
       (aiJs cardJs : List Nat) (now : Nat),
       (createGame roomCode players config gid aiResult aiJs cardJs now).gameId = gid) ∧
    (∀ (games : List (String × GameState)) (roomCode : String)
       (players : List RoomPlayer) (config : GameConfig) (gid : String)
       (aiResult : Option (List BugSolutionPair)) (aiJs cardJs : List Nat)
       (now : Nat) (other : String), other ≠ gid →
       gamesGet (createGameInRegistry games roomCode players config gid aiResult
         aiJs cardJs now).2 other = gamesGet games other) ∧
    (∀ (games : List (String × GameState)) (g1 g2 : GameState),
       g1.gameId = g2.gameId →
       gamesGet (gamesSet (gamesSet games g1) g2) g2.gameId = some g2 ∧
       (gamesSet (gamesSet games g1) g2).countP (fun kv => kv.1 == g2.gameId) =
         (gamesSet games g1).countP (fun kv => kv.1 == g2.gameId)) ∧
    (∀ (rooms : List (String × GameRoom)) (draws : List String) (code : String),
       generateRoomCode rooms draws = some code →
       rooms.any (fun kv => kv.1 == code) = false) := by
  refine ⟨fun _ _ _ _ _ _ _ _ => rfl, ?_, ?_, generateRoomCode_fresh⟩
  · intro games roomCode players config gid aiResult aiJs cardJs now other hother
    exact gamesGet_gamesSet_ne games _ other hother
  · intro games g1 g2 h
    constructor
    · exact gamesGet_gamesSet_self (gamesSet games g1) g2
    · have hpresent := any_of_gamesGet_some (gamesSet games g1) g1.gameId g1
        (gamesGet_gamesSet_self games g1)
      rw [h] at hpresent
      exact countP_gamesSet_present (gamesSet games g1) g2 g2.gameId hpresent

/-- Witness for C10: two creations drawing the id `"dup"` — the second
replaces the first; and a room-code draw stream whose first draw collides
with live room `"AB"` yields the fresh code `"CD"`. -/
theorem createGame_unchecked_id_collision_overwrites_witness :
    gamesGet (gamesSet (gamesSet ([] : List (String × GameState))
        (createGame "R1" [⟨"A", "a"⟩, ⟨"B", "b"⟩] testConfig1 "dup" none [] [] 0))
        (createGame "R2" [⟨"A", "a"⟩, ⟨"B", "b"⟩] testConfig1 "dup" none [] [] 1))
        "dup"
      = some (createGame "R2" [⟨"A", "a"⟩, ⟨"B", "b"⟩] testConfig1 "dup" none [] [] 1) ∧
    createGame "R1" [⟨"A", "a"⟩, ⟨"B", "b"⟩] testConfig1 "dup" none [] [] 0 ≠
      createGame "R2" [⟨"A", "a"⟩, ⟨"B", "b"⟩] testConfig1 "dup" none [] [] 1 ∧
    generateRoomCode testRooms ["AB", "CD"] = some "CD" ∧
    testRooms.any (fun kv => kv.1 == "CD") = false := by
  have h := createGame_unchecked_id_collision_overwrites
  exact ⟨(h.2.2.1 []
      (createGame "R1" [⟨"A", "a"⟩, ⟨"B", "b"⟩] testConfig1 "dup" none [] [] 0)
      (createGame "R2" [⟨"A", "a"⟩, ⟨"B", "b"⟩] testConfig1 "dup" none [] [] 1)
      rfl).1, by decide, by decide,
    h.2.2.2 testRooms ["AB", "CD"] "CD" (by decide)⟩

/-- `swapAt` preserves length. -/
theorem length_swapAt (l : List α) (i j : Nat) : (swapAt l i j).length = l.length := by
  unfold swapAt
  cases h1 : l[i]? <;> cases h2 : l[j]? <;> simp

/-- The `shuffleArray` loop preserves length. -/
theorem length_shuffleArrayAux (i : Nat) (l : List α) (js : List Nat) :
    (shuffleArrayAux l i js).length = l.length := by
  induction i generalizing l js with
  | zero => rfl
  | succ i ih =>
    cases js with
    | nil => rfl
    | cons j js =>
      rw [shuffleArrayAux, ih, length_swapAt]

/-- `shuffleArray` preserves length. -/
theorem length_shuffleArray (l : List α) (js : List Nat) :
    (shuffleArray l js).length = l.length :=
  length_shuffleArrayAux _ l js

/-- Counterexample for C6: with the AI call failing and `count = 10`, the
fallback path returns only the 9 built-in pairs (`slice` never repeats), not
`count` pairs. -/
theorem generateBugSolutionPairs_count10_shortfall :
    (generateBugSolutionPairs 10 none []).length ≠ 10 := by
  decide

/-- C6 (amended): `generateBugSolutionPairs` returns exactly `count` pairs
when the AI output is a well-formed array of exactly `count` pairs, and
otherwise falls back to the built-in set and returns `min count 9` pairs —
exactly `count` only when `count ≤ 9`; it never aborts. -/
theorem generateBugSolutionPairs_length (count : Nat)
    (aiResult : Option (List BugSolutionPair)) (js : List Nat) :
    (generateBugSolutionPairs count aiResult js).length =
      match aiResult with
      | some l => if l.length = count then count else min count 9
      | none => min count 9 := by
  have hfb : ∀ js2 : List Nat, (getFallbackPairs count js2).length = min count 9 := by
    intro js2
    unfold getFallbackPairs
    rw [List.length_take, length_shuffleArray]
    rfl
  cases aiResult with
  | none => simpa using hfb js
  | some l =>
    by_cases hl : l.length = count
    · simp [generateBugSolutionPairs, hl]
    · simp [generateBugSolutionPairs, hl, hfb js]

/-- `find?` after `updateFirst` on a key predicate: looking up the updated
key finds the updated element, any other key is unaffected (the update must
preserve keys). -/
theorem find?_updateFirst_key (key : α → String) (a b : String)
    (f : α → α) (hf : ∀ x, key (f x) = key x) (l : List α) :
    (updateFirst (fun x => key x == a) f l).find? (fun x => key x == b) =
      if a = b then (l.find? (fun x => key x == b)).map f
      else l.find? (fun x => key x == b) := by
  induction l with
  | nil =>
    simp only [updateFirst, List.find?_nil, Option.map_none']
    split <;> rfl
  | cons x xs ih =>
    by_cases hxa : (key x == a) = true
    · have hx : key x = a := by simpa using hxa
      by_cases hab : a = b
      · subst hab
        have hfx : (key (f x) == a) = true := by rw [hf]; exact hxa
        simp [updateFirst, hxa, hfx, hx]
      · have hxb : (key x == b) = false := by
          simp only [beq_eq_false_iff_ne, ne_eq, hx]
          exact hab
        have hfxb : (key (f x) == b) = false := by rw [hf]; exact hxb
        simp [updateFirst, hxa, hxb, hfxb, hab]
    · have hxa2 : (key x == a) = false := by
        cases hb : (key x == a)
        · rfl
        · exact absurd hb hxa
      by_cases hxb : (key x == b) = true
      · by_cases hab : a = b
        · exact absurd (hab ▸ hxb) hxa
        · simp [updateFirst, hxa2, hxb, hab]
      · have hxb2 : (key x == b) = false := by
          cases hb : (key x == b)
          · rfl
          · exact absurd hb hxb
        simp [updateFirst, hxa2, hxb2, ih]

/-- `map` ignores an `updateFirst` whose update leaves the mapped projection
unchanged. -/
theorem map_updateFirst (p : α → Bool) (f : α → α) (g : α → β)
    (hg : ∀ x, g (f x) = g x) (l : List α) :
    (updateFirst p f l).map g = l.map g := by
  induction l with
  | nil => rfl
  | cons x xs ih =>
    by_cases hx : p x = true
    · simp [updateFirst, hx, hg]
    · have hx2 : p x = false := by
        cases hb : p x
        · rfl
        · exact absurd hb hx
      simp [updateFirst, hx2, ih]

/-- `find?_updateFirst_key` specialised to card ids. -/
theorem find?_updateFirst_card (a b : String) (f : Card → Card)
    (hf : ∀ x, (f x).id = x.id) (l : List Card) :
    (updateFirst (fun c => c.id == a) f l).find? (fun c => c.id == b) =
      if a = b then (l.find? (fun c => c.id == b)).map f
      else l.find? (fun c => c.id == b) :=
  find?_updateFirst_key (fun c : Card => c.id) a b f hf l

/-- `find?_updateFirst_key` specialised to player ids. -/
theorem find?_updateFirst_player (a b : String) (f : PlayerGameState → PlayerGameState)
    (hf : ∀ x, (f x).id = x.id) (l : List PlayerGameState) :
    (updateFirst (fun p => p.id == a) f l).find? (fun p => p.id == b) =
      if a = b then (l.find? (fun p => p.id == b)).map f
      else l.find? (fun p => p.id == b) :=
  find?_updateFirst_key (fun p : PlayerGameState => p.id) a b f hf l

/-- C7: a second flip matching the first flipped card marks both cards
matched, credits the acting player with one match and the per-difficulty
score (10/20/30), clears both pending slots, leaves turn ownership (and all
`isCurrentTurn` flags) unchanged, and either finishes the game (all cards
matched: `status = finished`, `endedAt` stamped, turn-start untouched) or
resets the turn-start timestamp with status and `endedAt` unchanged. -/
theorem handleCardFlip_match_effects (game : GameState) (playerId cid fid : String)
    (card firstCard : Card) (pl : PlayerGameState) (now : Nat)
    (hturn : game.currentTurn = playerId)
    (hfind : game.cards.find? (fun c => c.id == cid) = some card)
    (hm : card.isMatched = false) (hfp : card.isFlipped = false)
    (hff : game.firstFlippedCard = some fid)
    (hfc : (updateFirst (fun c => c.id == cid)
        (fun c => { c with isFlipped := true }) game.cards).find?
        (fun c => c.id == fid) = some firstCard)
    (hmatch : firstCard.matchingCardId = cid)
    (hdiff : firstCard.difficulty = card.difficulty)
    (hpl : game.players.find? (fun p => p.id == playerId) = some pl)
    (hne : fid ≠ cid) :
    ((handleCardFlip game playerId cid now).action = FlipAction.matchFound) ∧
    ((handleCardFlip game playerId cid now).scheduled = none) ∧
    (((handleCardFlip game playerId cid now).gameState.cards.find?
        (fun c => c.id == cid)).map (·.isMatched) = some true) ∧
    (((handleCardFlip game playerId cid now).gameState.cards.find?
        (fun c => c.id == fid)).map (·.isMatched) = some true) ∧
    ((handleCardFlip game playerId cid now).gameState.players.find?
        (fun p => p.id == playerId) =
      some { pl with matchesFound := pl.matchesFound + 1,
                     score := pl.score + calculateScore card.difficulty }) ∧
    (calculateScore .easy = 10 ∧ calculateScore .medium = 20 ∧
      calculateScore .hard = 30) ∧
    ((handleCardFlip game playerId cid now).gameState.firstFlippedCard = none) ∧
    ((handleCardFlip game playerId cid now).gameState.secondFlippedCard = none) ∧
    ((handleCardFlip game playerId cid now).gameState.currentTurn = game.currentTurn) ∧
    ((handleCardFlip game playerId cid now).gameState.players.map (·.isCurrentTurn) =
      game.players.map (·.isCurrentTurn)) ∧
    ((handleCardFlip game playerId cid now).gameState.cards.all (·.isMatched) = true →
      (handleCardFlip game playerId cid now).gameState.status = GameStatus.finished ∧
      (handleCardFlip game playerId cid now).gameState.endedAt = some now ∧
      (handleCardFlip game playerId cid now).gameState.currentTurnStartedAt =
        game.currentTurnStartedAt) ∧
    ((handleCardFlip game playerId cid now).gameState.cards.all (·.isMatched) = false →
      (handleCardFlip game playerId cid now).gameState.status = game.status ∧
      (handleCardFlip game playerId cid now).gameState.endedAt = game.endedAt ∧
      (handleCardFlip game playerId cid now).gameState.currentTurnStartedAt = now) := by
  have hmf_false : ¬ (card.isMatched = true ∨ card.isFlipped = true) := by
    simp [hm, hfp]
  have hcond : (((updateFirst (fun c => c.id == cid)
      (fun c => { c with isFlipped := true }) game.cards).find?
      (fun c => c.id == fid)).map (fun c => c.matchingCardId)) = some cid := by
    rw [hfc]
    simp [hmatch]
  simp only [handleCardFlip, hturn, ne_eq, not_true_eq_false, if_false, hfind,
    hmf_false, hff, hcond, if_true]
  have hA : ((updateFirst (fun c => c.id == fid)
      (fun c => { c with isMatched := true })
      (updateFirst (fun c => c.id == cid) (fun c => { c with isMatched := true })
        (updateFirst (fun c => c.id == cid) (fun c => { c with isFlipped := true })
          game.cards))).find? (fun c => c.id == cid)).map (·.isMatched) =
      some true := by
    rw [find?_updateFirst_card fid cid (fun c => { c with isMatched := true } : Card → Card) (fun _ => rfl),
      if_neg hne,
      find?_updateFirst_card cid cid (fun c => { c with isMatched := true } : Card → Card) (fun _ => rfl),
      if_pos rfl,
      find?_updateFirst_card cid cid (fun c => { c with isFlipped := true } : Card → Card) (fun _ => rfl),
      if_pos rfl, hfind]
    rfl
  have hB : ((updateFirst (fun c => c.id == fid)
      (fun c => { c with isMatched := true })
      (updateFirst (fun c => c.id == cid) (fun c => { c with isMatched := true })
        (updateFirst (fun c => c.id == cid) (fun c => { c with isFlipped := true })
          game.cards))).find? (fun c => c.id == fid)).map (·.isMatched) =
      some true := by
    rw [find?_updateFirst_card fid fid (fun c => { c with isMatched := true } : Card → Card) (fun _ => rfl),
      if_pos rfl,
      find?_updateFirst_card cid fid (fun c => { c with isMatched := true } : Card → Card) (fun _ => rfl),
      if_neg (fun h => hne h.symm), hfc]
    rfl
  have hC : (updateFirst (fun p => p.id == playerId)
      (fun p => { p with matchesFound := p.matchesFound + 1,
                         score := p.score + calculateScore card.difficulty })
      game.players).find? (fun p => p.id == playerId) =
      some { pl with matchesFound := pl.matchesFound + 1,
                     score := pl.score + calculateScore card.difficulty } := by
    rw [find?_updateFirst_player playerId playerId
      (fun p => { p with matchesFound := p.matchesFound + 1,
                         score := p.score + calculateScore card.difficulty })
      (fun _ => rfl), if_pos rfl, hpl]
    rfl
  have hD : (updateFirst (fun p => p.id == playerId)
      (fun p => { p with matchesFound := p.matchesFound + 1,
                         score := p.score + calculateScore card.difficulty })
      game.players).map (·.isCurrentTurn) = game.players.map (·.isCurrentTurn) :=
    map_updateFirst (fun p => p.id == playerId)
      (fun p => { p with matchesFound := p.matchesFound + 1,
                         score := p.score + calculateScore card.difficulty })
      (fun p => p.isCurrentTurn) (fun _ => rfl) game.players
  split_ifs with hall
  · exact ⟨rfl, rfl, hA, hB, hC, ⟨rfl, rfl, rfl⟩, rfl, rfl, rfl, hD,
      fun _ => ⟨rfl, rfl, rfl⟩, fun h => absurd hall (by simp [h])⟩
  · exact ⟨rfl, rfl, hA, hB, hC, ⟨rfl, rfl, rfl⟩, rfl, rfl, rfl, hD,
      fun h => absurd h hall, fun _ => ⟨rfl, rfl, rfl⟩⟩

/-- Witness for C7: in `testGame2`, after `A` flips `card_0`, the matching
second flip of `card_1` yields a `match` and credits `A` with 10 points and
one found match. -/
theorem handleCardFlip_match_effects_witness :
    (handleCardFlip ((handleCardFlip testGame2 "A" "card_0" 1).gameState)
      "A" "card_1" 2).action = FlipAction.matchFound ∧
    (handleCardFlip ((handleCardFlip testGame2 "A" "card_0" 1).gameState)
      "A" "card_1" 2).gameState.players.find? (fun p => p.id == "A") =
      some ⟨"A", "alice", 10, 1, false⟩ := by
  have h := handleCardFlip_match_effects
    ((handleCardFlip testGame2 "A" "card_0" 1).gameState) "A" "card_1" "card_0"
    ⟨"card_1", CardType.solution, "Check for null before accessing object",
      CardDifficulty.easy, false, false, "card_0", 1⟩
    ⟨"card_0", CardType.bug, "Null Pointer Exception",
      CardDifficulty.easy, true, false, "card_1", 0⟩
    ⟨"A", "alice", 0, 0, false⟩ 2
    (by decide) (by decide) (by decide) (by decide) (by decide) (by decide)
    (by decide) (by decide) (by decide) (by decide)
  exact ⟨h.1, h.2.2.2.2.1⟩

theorem toDigitsCore_acc (b : Nat) (f : Nat) : ∀ (n : Nat) (acc : List Char),
    Nat.toDigitsCore b f n acc = Nat.toDigitsCore b f n [] ++ acc := by
  induction f with
  | zero => intro n acc; simp [Nat.toDigitsCore]
  | succ f ih =>
    intro n acc
    simp only [Nat.toDigitsCore]
    by_cases h : n / b = 0
    · simp [h]
    · simp only [h, if_false]
      rw [ih (n / b) [Nat.digitChar (n % b)], ih (n / b) (Nat.digitChar (n % b) :: acc)]
      simp

theorem toDigitsCore_eq_digits (f : Nat) : ∀ n : Nat, 0 < n → n < 10 ^ f →
    Nat.toDigitsCore 10 f n [] = ((Nat.digits 10 n).map Nat.digitChar).reverse := by
  induction f with
  | zero =>
    intro n hn hlt
    simp at hlt
    omega
  | succ f ih =>
    intro n hn hlt
    simp only [Nat.toDigitsCore]
    by_cases h : n / 10 = 0
    · have hn10 : n < 10 := by omega
      rw [Nat.digits_def' (by norm_num : (1:Nat) < 10) hn, h]
      simp [Nat.mod_eq_of_lt hn10]
    · have hpos : 0 < n / 10 := Nat.pos_of_ne_zero h
      have hlt2 : n / 10 < 10 ^ f := by
        rw [Nat.div_lt_iff_lt_mul (by norm_num : (0:Nat) < 10)]
        calc n < 10 ^ (f + 1) := hlt
        _ = 10 ^ f * 10 := by ring
      simp only [h, if_false]
      rw [toDigitsCore_acc, ih (n / 10) hpos hlt2,
        Nat.digits_def' (by norm_num : (1:Nat) < 10) hn]
      simp

theorem toDigits_eq_digits (n : Nat) (hn : 0 < n) :
    Nat.toDigits 10 n = ((Nat.digits 10 n).map Nat.digitChar).reverse := by
  unfold Nat.toDigits
  exact toDigitsCore_eq_digits (n + 1) n hn
    (lt_of_lt_of_le (Nat.lt_pow_self (by norm_num) n)
      (Nat.pow_le_pow_right (by norm_num) (Nat.le_succ n)))

theorem toDigits_zero10 : Nat.toDigits 10 0 = ['0'] := by
  rfl

theorem digitChar_inj_lt : ∀ a : Nat, a < 10 → ∀ b : Nat, b < 10 →
    Nat.digitChar a = Nat.digitChar b → a = b := by
  decide

theorem map_digitChar_inj : ∀ (l1 l2 : List Nat), (∀ d ∈ l1, d < 10) →
    (∀ d ∈ l2, d < 10) → l1.map Nat.digitChar = l2.map Nat.digitChar → l1 = l2 := by
  intro l1
  induction l1 with
  | nil =>
    intro l2 _ _ h
    cases l2 with
    | nil => rfl
    | cons y ys => simp at h
  | cons x xs ih =>
    intro l2 h1 h2 h
    cases l2 with
    | nil => simp at h
    | cons y ys =>
      simp only [List.map_cons, List.cons.injEq] at h
      have hx := digitChar_inj_lt x (h1 x (by simp)) y (h2 y (by simp)) h.1
      rw [hx, ih ys (fun d hd => h1 d (by simp [hd])) (fun d hd => h2 d (by simp [hd])) h.2]

theorem asString_inj (l1 l2 : List Char) (h : l1.asString = l2.asString) : l1 = l2 := by
  simpa [List.asString] using congrArg String.data h

theorem nat_repr_inj (m n : Nat) (h : Nat.repr m = Nat.repr n) : m = n := by
  unfold Nat.repr at h
  have hd := asString_inj _ _ h
  by_cases hm : m = 0
  · by_cases hn : n = 0
    · rw [hm, hn]
    · exfalso
      rw [hm, toDigits_zero10,
        toDigits_eq_digits n (Nat.pos_of_ne_zero hn)] at hd
      have hmap : (Nat.digits 10 n).map Nat.digitChar = ['0'] := by
        have := congrArg List.reverse hd
        simpa using this.symm
      have hdig : Nat.digits 10 n = [0] :=
        map_digitChar_inj _ [0]
          (fun d hdm => Nat.digits_lt_base (by norm_num) hdm)
          (by simp) (by simpa using hmap)
      have := Nat.ofDigits_digits 10 n
      rw [hdig] at this
      simp [Nat.ofDigits] at this
      exact hn this.symm
  · by_cases hn : n = 0
    · exfalso
      rw [hn, toDigits_zero10,
        toDigits_eq_digits m (Nat.pos_of_ne_zero hm)] at hd
      have hmap : (Nat.digits 10 m).map Nat.digitChar = ['0'] := by
        have := congrArg List.reverse hd
        simpa using this
      have hdig : Nat.digits 10 m = [0] :=
        map_digitChar_inj _ [0]
          (fun d hdm => Nat.digits_lt_base (by norm_num) hdm)
          (by simp) (by simpa using hmap)
      have := Nat.ofDigits_digits 10 m
      rw [hdig] at this
      simp [Nat.ofDigits] at this
      exact hm this.symm
    · rw [toDigits_eq_digits m (Nat.pos_of_ne_zero hm),
        toDigits_eq_digits n (Nat.pos_of_ne_zero hn)] at hd
      have hmap := List.reverse_injective hd
      have hdig := map_digitChar_inj _ _
        (fun d hdm => Nat.digits_lt_base (by norm_num) hdm)
        (fun d hdm => Nat.digits_lt_base (by norm_num) hdm) hmap
      have h1 := Nat.ofDigits_digits 10 m
      have h2 := Nat.ofDigits_digits 10 n
      rw [hdig] at h1
      rw [h1] at h2
      exact h2

theorem cardId_inj (m n : Nat) (h : cardId m = cardId n) : m = n := by
  unfold cardId at h
  have hd := congrArg String.data h
  have : (Nat.repr m).data = (Nat.repr n).data := by
    have e1 : ("card_" ++ toString m).data = "card_".data ++ (Nat.repr m).data := rfl
    have e2 : ("card_" ++ toString n).data = "card_".data ++ (Nat.repr n).data := rfl
    rw [e1, e2] at hd
    exact List.append_cancel_left hd
  exact nat_repr_inj m n (String.ext this)

/-- The opposite card type of the bug-solution pairing. -/
def oppType : CardType → CardType
  | .bug => .solution
  | .solution => .bug

/-- A card with its `position` erased, for position-independent comparison
(shuffling only rewrites `position`). -/
def erasePos (c : Card) : Card := { c with position := 0 }

/-- `d` is the partner card of `c`: its `matchingCardId` points back to `c`,
`c`'s points to it, it has the opposite type and the same difficulty. -/
def isPartnerOf (d c : Card) : Bool :=
  d.id == c.matchingCardId && d.matchingCardId == c.id &&
  d.type == oppType c.type && d.difficulty == c.difficulty

theorem cardId_beq_false {a b : Nat} (h : a ≠ b) : (cardId a == cardId b) = false := by
  cases hb : (cardId a == cardId b)
  · rfl
  · exact absurd (cardId_inj a b (by simpa using hb)) h

theorem length_generateCardsAux (pairs : List BugSolutionPair) (pos : Nat) :
    (generateCardsAux pairs pos).length = 2 * pairs.length := by
  induction pairs generalizing pos with
  | nil => rfl
  | cons p rest ih =>
    simp only [generateCardsAux, List.length_cons, ih, List.length]
    ring

theorem position_generateCardsAux (pairs : List BugSolutionPair) :
    ∀ (pos k : Nat) (c : Card), (generateCardsAux pairs pos)[k]? = some c →
      c.position = pos + k := by
  induction pairs with
  | nil =>
    intro pos k c h
    simp [generateCardsAux] at h
  | cons p rest ih =>
    intro pos k c h
    match k with
    | 0 =>
      simp only [generateCardsAux, List.getElem?_cons_zero, Option.some_inj] at h
      rw [← h]
      simp
    | 1 =>
      simp only [generateCardsAux, List.getElem?_cons_succ,
        List.getElem?_cons_zero, Option.some_inj] at h
      rw [← h]
    | Nat.succ (Nat.succ k) =>
      simp only [generateCardsAux, List.getElem?_cons_succ] at h
      have := ih (pos + 2) k c h
      omega

theorem ids_generateCardsAux (pairs : List BugSolutionPair) :
    ∀ (pos : Nat) (c : Card), c ∈ generateCardsAux pairs pos →
      (∃ m, pos ≤ m ∧ c.id = cardId m) ∧
      (∃ m, pos ≤ m ∧ c.matchingCardId = cardId m) := by
  induction pairs with
  | nil =>
    intro pos c h
    simp [generateCardsAux] at h
  | cons p rest ih =>
    intro pos c h
    simp only [generateCardsAux, List.mem_cons] at h
    rcases h with h | h | h
    · subst h
      exact ⟨⟨pos, Nat.le_refl _, rfl⟩, ⟨pos + 1, by omega, rfl⟩⟩
    · subst h
      exact ⟨⟨pos + 1, by omega, rfl⟩, ⟨pos, Nat.le_refl _, rfl⟩⟩
    · obtain ⟨⟨m1, hm1, e1⟩, ⟨m2, hm2, e2⟩⟩ := ih (pos + 2) c h
      exact ⟨⟨m1, by omega, e1⟩, ⟨m2, by omega, e2⟩⟩

theorem countP_isPartnerOf_generateCardsAux (pairs : List BugSolutionPair) :
    ∀ (pos : Nat) (c : Card), c ∈ generateCardsAux pairs pos →
      (generateCardsAux pairs pos).countP (fun d => isPartnerOf d c) = 1 := by
  induction pairs with
  | nil =>
    intro pos c h
    simp [generateCardsAux] at h
  | cons p rest ih =>
    intro pos c h
    have htail0 : ∀ (c2 : Card) (x : Nat), c2.matchingCardId = cardId x →
        x < pos + 2 →
        (generateCardsAux rest (pos + 2)).countP (fun d => isPartnerOf d c2) = 0 := by
      intro c2 x hx hlt
      rw [List.countP_eq_zero]
      intro d hd
      obtain ⟨⟨m, hm, e⟩, _⟩ := ids_generateCardsAux rest (pos + 2) d hd
      simp only [isPartnerOf, e, hx]
      rw [cardId_beq_false (by omega : m ≠ x)]
      simp
    simp only [generateCardsAux, List.mem_cons] at h
    simp only [generateCardsAux, List.countP_cons]
    rcases h with h | h | h
    · subst h
      rw [htail0 _ (pos + 1) rfl (by omega)]
      have hb1 : (cardId pos == cardId (pos + 1)) = false :=
        cardId_beq_false (by omega)
      simp [isPartnerOf, oppType, hb1]
    · subst h
      rw [htail0 _ pos rfl (by omega)]
      have hb1 : (cardId (pos + 1) == cardId pos) = false :=
        cardId_beq_false (by omega)
      simp [isPartnerOf, oppType, hb1]
    · obtain ⟨⟨m1, hm1, e1⟩, ⟨m2, hm2, e2⟩⟩ := ids_generateCardsAux rest (pos + 2) c h
      have hcnt := ih (pos + 2) c h
      have hb1 : (cardId pos == cardId m2) = false := cardId_beq_false (by omega)
      have hb2 : (cardId (pos + 1) == cardId m2) = false := cardId_beq_false (by omega)
      simpa [isPartnerOf, e2, hb1, hb2] using hcnt

theorem length_fisherSwap (cards : List Card) (i j : Nat) :
    (fisherSwap cards i j).length = cards.length := by
  unfold fisherSwap
  cases h1 : cards[i]? <;> cases h2 : cards[j]? <;> simp

theorem length_shuffleCardsAux (i : Nat) (cards : List Card) (js : List Nat) :
    (shuffleCardsAux cards i js).length = cards.length := by
  induction i generalizing cards js with
  | zero => rfl
  | succ i ih =>
    cases js with
    | nil => rfl
    | cons j js => rw [shuffleCardsAux, ih, length_fisherSwap]

theorem length_shuffleCards (cards : List Card) (js : List Nat) :
    (shuffleCards cards js).length = cards.length :=
  length_shuffleCardsAux _ cards js

theorem cons_set_perm (xs : List α) : ∀ (m : Nat) (b x : α), xs[m]? = some b →
    List.Perm (b :: xs.set m x) (x :: xs) := by
  induction xs with
  | nil =>
    intro m b x h
    simp at h
  | cons y ys ih =>
    intro m b x h
    match m with
    | 0 =>
      simp only [List.getElem?_cons_zero, Option.some_inj] at h
      rw [h]
      exact List.Perm.swap x b ys
    | Nat.succ m =>
      simp only [List.getElem?_cons_succ] at h
      have h1 := ih m b x h
      exact List.Perm.trans (List.Perm.swap y b (ys.set m x))
        (List.Perm.trans (List.Perm.cons y h1) (List.Perm.swap x y ys))

theorem set_set_perm (l : List α) : ∀ (i j : Nat) (a b : α), l[i]? = some a →
    l[j]? = some b → List.Perm ((l.set i b).set j a) l := by
  induction l with
  | nil =>
    intro i j a b ha _
    simp at ha
  | cons x xs ih =>
    intro i j a b ha hb
    match i, j with
    | 0, 0 =>
      simp only [List.getElem?_cons_zero, Option.some_inj] at ha hb
      rw [ha]
      exact List.Perm.refl _
    | 0, Nat.succ m =>
      simp only [List.getElem?_cons_zero, Option.some_inj] at ha
      simp only [List.getElem?_cons_succ] at hb
      rw [ha]
      exact cons_set_perm xs m b a hb
    | Nat.succ m, 0 =>
      simp only [List.getElem?_cons_zero, Option.some_inj] at hb
      simp only [List.getElem?_cons_succ] at ha
      rw [hb]
      exact cons_set_perm xs m a b ha
    | Nat.succ m, Nat.succ k =>
      simp only [List.getElem?_cons_succ] at ha hb
      exact List.Perm.cons x (ih m k a b ha hb)

theorem erasePos_fisherSwap_perm (cards : List Card) (i j : Nat) :
    List.Perm ((fisherSwap cards i j).map erasePos) (cards.map erasePos) := by
  unfold fisherSwap
  cases h1 : cards[i]? with
  | none => exact List.Perm.refl _
  | some ci =>
    cases h2 : cards[j]? with
    | none => exact List.Perm.refl _
    | some cj =>
      rw [List.map_set, List.map_set]
      have ha : (cards.map erasePos)[i]? = some (erasePos ci) := by
        rw [List.getElem?_map, h1]
        rfl
      have hb : (cards.map erasePos)[j]? = some (erasePos cj) := by
        rw [List.getElem?_map, h2]
        rfl
      have he1 : erasePos { cj with position := i } = erasePos cj := rfl
      have he2 : erasePos { ci with position := j } = erasePos ci := rfl
      rw [he1, he2]
      exact set_set_perm (cards.map erasePos) i j (erasePos ci) (erasePos cj) ha hb

theorem erasePos_shuffleCardsAux_perm (i : Nat) (cards : List Card) (js : List Nat) :
    List.Perm ((shuffleCardsAux cards i js).map erasePos) (cards.map erasePos) := by
  induction i generalizing cards js with
  | zero => exact List.Perm.refl _
  | succ i ih =>
    cases js with
    | nil => exact List.Perm.refl _
    | cons j js =>
      rw [shuffleCardsAux]
      exact (ih (fisherSwap cards (i + 1) j) js).trans
        (erasePos_fisherSwap_perm cards (i + 1) j)

theorem erasePos_shuffleCards_perm (cards : List Card) (js : List Nat) :
    List.Perm ((shuffleCards cards js).map erasePos) (cards.map erasePos) :=
  erasePos_shuffleCardsAux_perm _ cards js

/-- The invariant behind dense positions: every card sits at the index its
`position` field names. -/
def PosIdx (l : List Card) : Prop :=
  ∀ (k : Nat) (c : Card), l[k]? = some c → c.position = k

theorem posIdx_fisherSwap (cards : List Card) (i j : Nat) (h : PosIdx cards) :
    PosIdx (fisherSwap cards i j) := by
  unfold fisherSwap
  cases h1 : cards[i]? with
  | none => exact h
  | some ci =>
    cases h2 : cards[j]? with
    | none => exact h
    | some cj =>
      intro k c hk
      obtain ⟨hilen, _⟩ := List.getElem?_eq_some_iff.mp h1
      obtain ⟨hjlen, _⟩ := List.getElem?_eq_some_iff.mp h2
      by_cases hkj : j = k
      · subst hkj
        rw [List.getElem?_set_self (by simpa using hjlen)] at hk
        cases hk
        rfl
      · rw [List.getElem?_set_ne hkj] at hk
        by_cases hki : i = k
        · subst hki
          rw [List.getElem?_set_self hilen] at hk
          cases hk
          rfl
        · rw [List.getElem?_set_ne hki] at hk
          exact h k c hk

theorem posIdx_shuffleCardsAux (i : Nat) (cards : List Card) (js : List Nat)
    (h : PosIdx cards) : PosIdx (shuffleCardsAux cards i js) := by
  induction i generalizing cards js with
  | zero => exact h
  | succ i ih =>
    cases js with
    | nil => exact h
    | cons j js =>
      rw [shuffleCardsAux]
      exact ih (fisherSwap cards (i + 1) j) js (posIdx_fisherSwap cards (i + 1) j h)

theorem posIdx_generateCardsAux (pairs : List BugSolutionPair) :
    PosIdx (generateCardsAux pairs 0) := by
  intro k c hk
  have := position_generateCardsAux pairs 0 k c hk
  omega

theorem map_position_eq_range (l : List Card) (h : PosIdx l) :
    l.map (·.position) = List.range l.length := by
  apply List.ext_getElem?
  intro k
  rw [List.getElem?_map]
  cases hk : l[k]? with
  | none =>
    have hlen : l.length ≤ k := List.getElem?_eq_none_iff.mp hk
    rw [List.getElem?_eq_none (by simpa using hlen)]
    rfl
  | some c =>
    have hc := h k c hk
    have hlen : k < l.length := (List.getElem?_eq_some_iff.mp hk).1
    rw [List.getElem?_range hlen]
    simp [hc]

theorem countP_isPartnerOf_generateCards (pairs : List BugSolutionPair)
    (js : List Nat) :
    ∀ c ∈ generateCards pairs js,
      (generateCards pairs js).countP (fun d => isPartnerOf d c) = 1 := by
  intro c hc
  have hperm : List.Perm ((generateCards pairs js).map erasePos)
      ((generateCardsAux pairs 0).map erasePos) :=
    erasePos_shuffleCards_perm (generateCardsAux pairs 0) js
  have hmem : erasePos c ∈ (generateCardsAux pairs 0).map erasePos :=
    hperm.subset (List.mem_map_of_mem erasePos hc)
  obtain ⟨c0, hc0mem, hc0⟩ := List.mem_map.mp hmem
  have h1 : c0.matchingCardId = c.matchingCardId := by
    have := congrArg (fun x : Card => x.matchingCardId) hc0
    simpa [erasePos] using this
  have h2 : c0.id = c.id := by
    have := congrArg (fun x : Card => x.id) hc0
    simpa [erasePos] using this
  have h3 : c0.type = c.type := by
    have := congrArg (fun x : Card => x.type) hc0
    simpa [erasePos] using this
  have h4 : c0.difficulty = c.difficulty := by
    have := congrArg (fun x : Card => x.difficulty) hc0
    simpa [erasePos] using this
  have hpred : (fun d => isPartnerOf d c) = (fun d => isPartnerOf d c0) := by
    funext d
    unfold isPartnerOf
    rw [h1, h2, h3, h4]
  rw [hpred]
  have e1 : (generateCards pairs js).countP (fun d => isPartnerOf d c0) =
      ((generateCards pairs js).map erasePos).countP (fun d => isPartnerOf d c0) := by
    rw [List.countP_map]
    exact List.countP_congr (fun d _ => by unfold isPartnerOf erasePos; simp)
  have e2 := hperm.countP_eq (fun d => isPartnerOf d c0)
  have e3 : ((generateCardsAux pairs 0).map erasePos).countP
      (fun d => isPartnerOf d c0) =
      (generateCardsAux pairs 0).countP (fun d => isPartnerOf d c0) := by
    rw [List.countP_map]
    exact List.countP_congr (fun d _ => by unfold isPartnerOf erasePos; simp)
  rw [e1, e2, e3]
  exact countP_isPartnerOf_generateCardsAux pairs 0 c0 hc0mem

/-- C8: every board produced by `createGame` (i.e. `generateCards` on the
sourced pairs) has `2 * pairs` cards; shuffling preserves the multiset of
cards up to the rewritten `position` field (so the multiset of pairs is
preserved); after shuffling the `position` fields are exactly `0, 1, ..., N-1`
in index order — a dense permutation of `[0, N)`; and every card has exactly
one partner card whose `matchingCardId` points back to it, of the opposite
type and the same difficulty. -/
theorem generateCards_board_spec (pairs : List BugSolutionPair) (js : List Nat) :
    (generateCards pairs js).length = 2 * pairs.length ∧
    List.Perm ((generateCards pairs js).map erasePos)
      ((generateCardsAux pairs 0).map erasePos) ∧
    (generateCards pairs js).map (·.position) = List.range (2 * pairs.length) ∧
    ∀ c ∈ generateCards pairs js,
      (generateCards pairs js).countP (fun d => isPartnerOf d c) = 1 := by
  have hlen : (generateCards pairs js).length = 2 * pairs.length := by
    unfold generateCards
    rw [length_shuffleCards, length_generateCardsAux]
  refine ⟨hlen, ?_, ?_, countP_isPartnerOf_generateCards pairs js⟩
  · exact erasePos_shuffleCards_perm (generateCardsAux pairs 0) js
  · have hpos : PosIdx (generateCards pairs js) :=
      posIdx_shuffleCardsAux _ _ js (posIdx_generateCardsAux pairs)
    rw [map_position_eq_range _ hpos, hlen]

/-- Witness for C8: the one-pair board with draw `[1]`. -/
theorem generateCards_board_spec_witness :
    (generateCards [⟨"b", "s", CardDifficulty.easy⟩] [1]).length = 2 ∧
    (generateCards [⟨"b", "s", CardDifficulty.easy⟩] [1]).countP
      (fun d => isPartnerOf d ⟨"card_0", CardType.bug, "b", CardDifficulty.easy,
        false, false, "card_1", 0⟩) = 1 := by
  have h := generateCards_board_spec [⟨"b", "s", CardDifficulty.easy⟩] [1]
  exact ⟨h.1, h.2.2.2 _ (by decide)⟩
